import Mathlib

/-!
Shallow embedding of `src/stock_values_retriever.py` (class `CStockValuesRetriever`).

The script reads an input CSV of companies, visits one stock page per row with a
browser, extracts a price and a last-update timestamp, and writes the rows back
to an output CSV.  The embedding models:

* a CSV row (`Row`) with the columns the program touches;
* the state of a loaded web page as the program observes it (`PageState`):
  HTTP status of the response, visibility of the "Company page" landmark link,
  the accessible names of the visible headings, and the text content of the
  price element and of the timestamp element (`none` = locator timeout);
* the helper methods `_verify_page`, `_get_stock_value`,
  `_get_last_update_timestamp`, the URL construction, `_setup`, the
  per-row body of `get_stock_values_csv`, and the `__main__` try/finally.

Python exceptions are modelled with `PyError`; a Python function that may
raise returns `Except PyError _`.  Python's `float()` on decimal literals is
modelled exactly over `ℚ` (see `pyFloat?`).
-/

set_option autoImplicit false

namespace StockRetriever

/-- Exceptions the script can raise. -/
inductive PyError where
  | valueError (s : String)
  | runtimeError (s : String)
  | keyError (s : String)
  deriving Repr, DecidableEq

/-- One CSV row as the program uses it: the `company name`, `stock code`,
`value` and `timestamp` columns.  `value` is `none` when the cell is empty/NaN;
`timestamp` is `none` when the cell is empty/NaN (after `_setup` casts the
column to string). -/
structure Row where
  companyName : String
  stockCode : String
  value : Option ℚ
  timestamp : Option String
  deriving Repr, DecidableEq

/-- What the program observes on a loaded page.
`status = none` models `page.goto` returning no response object;
`priceText`/`timestampText` are the (raw) text contents of
`span.price-tag` and `div.ticker-item.delay span.bold-font-weight`,
with `none` modelling a locator `TimeoutError`. -/
structure PageState where
  status : Option Nat
  statusText : String
  landmarkVisible : Bool
  headings : List String
  priceText : Option String
  timestampText : Option String
  deriving Repr, DecidableEq

/-! ### Python string helpers used by the script -/

/-- Python `str.isspace` characters relevant to `str.strip()` (ASCII fragment). -/
def pyIsSpace (c : Char) : Bool :=
  c = ' ' || c = '\t' || c = '\n' || c = '\r' || c = '\x0b' || c = '\x0c'

/-- Python `s.strip()`: drop leading and trailing whitespace. -/
def pyStrip (s : String) : String :=
  String.mk (((s.data.dropWhile pyIsSpace).reverse.dropWhile pyIsSpace).reverse)

/-- Python `s.replace(',', '')`: every comma removed (single-character
pattern, so a character filter). -/
def removeCommas (s : String) : String :=
  String.mk (s.data.filter (fun c => ¬ c = ','))

/-- Python `s.lower()` followed by `s.replace(' ', '-')` as used on company
names (per-character lower-casing; `replace` with single-character pattern is a
character map).  Source line 143: `company_name.lower().replace(' ', '-')`. -/
def name_converted (name : String) : String :=
  String.mk ((name.data.map Char.toLower).map (fun c => if c = ' ' then '-' else c))

/-- Source line 9 / 144: `URL_BASE.format(stock_code, name_converted)` with
`URL_BASE = 'https://www.londonstockexchange.com/stock/{}/{}/company-page'`. -/
def urlBaseFormat (code slug : String) : String :=
  "https://www.londonstockexchange.com/stock/" ++ code ++ "/" ++ slug ++ "/company-page"

/-- The URL visited for a row (source lines 142-144). -/
def company_url (r : Row) : String :=
  urlBaseFormat r.stockCode (name_converted r.companyName)

/-! ### Python `float()` on decimal literals -/

/-- Decimal digit test. -/
def isDigit (c : Char) : Bool := '0' ≤ c && c ≤ '9'

/-- Numeric value of a digit string (most significant first). -/
def digitsVal (l : List Char) : Nat :=
  l.foldl (fun a c => a * 10 + (c.toNat - '0'.toNat)) 0

/-- Parse an optional sign followed by a non-empty digit string, the whole
input consumed: the exponent part of a float literal. -/
def parseExpPart (cs : List Char) : Option Int :=
  let (sgn, cs') : Int × List Char :=
    match cs with
    | '+' :: rest => (1, rest)
    | '-' :: rest => (-1, rest)
    | _ => (1, cs)
  if cs'.length > 0 && cs'.all isDigit then some (sgn * digitsVal cs') else none

/-- Mantissa and optional exponent after the sign: digits, optionally a dot
with more digits (at least one digit on some side of the dot), optionally
`e`/`E` and an exponent. -/
def parseMantissa (cs : List Char) : Option ℚ :=
  let intPart := cs.takeWhile isDigit
  let rest := cs.dropWhile isDigit
  match rest with
  | [] => if intPart.length > 0 then some (digitsVal intPart : ℚ) else none
  | '.' :: rest' =>
      let frac := rest'.takeWhile isDigit
      let rest'' := rest'.dropWhile isDigit
      if intPart.length = 0 && frac.length = 0 then none
      else
        let mant : ℚ := (digitsVal intPart : ℚ) + (digitsVal frac : ℚ) / ((10 : ℚ) ^ frac.length)
        match rest'' with
        | [] => some mant
        | e :: rest₃ =>
            if e = 'e' || e = 'E' then
              (parseExpPart rest₃).map (fun k => mant * (10 : ℚ) ^ k)
            else none
  | e :: rest₃ =>
      if intPart.length > 0 && (e = 'e' || e = 'E') then
        (parseExpPart rest₃).map (fun k => (digitsVal intPart : ℚ) * (10 : ℚ) ^ k)
      else none

/-- Python `float(s)` on plain decimal literals, modelled exactly over `ℚ`:
surrounding whitespace is stripped, then `[sign] digits [. digits] [e exp]`.
Returns `none` where `float()` raises `ValueError`.  (The special names
`inf`/`nan` and underscore separators are outside the modelled fragment; the
price texts the claims concern are plain decimal literals.) -/
def pyFloat? (s : String) : Option ℚ :=
  let cs := (pyStrip s).data
  match cs with
  | '+' :: rest => parseMantissa rest
  | '-' :: rest => (parseMantissa rest).map (fun q => -q)
  | _ => parseMantissa cs

/-! ### The heading regex (source line 65)

`_verify_page` builds `re.compile(company_name + '$', re.I)` — the company
name is NOT escaped, so its characters are interpreted as regex syntax.
Playwright matches the accessible name against the pattern with search
semantics, so acceptance means: some suffix of the heading matches the
name-as-regex, case-insensitively.  We model the regex fragment the name can
fall into when it contains only ordinary characters and `.` (each token
consumes exactly one character). -/

/-- A token of the modelled regex fragment: an ordinary character matched
case-insensitively (`re.I`), or the metacharacter `.` (any character except
newline). -/
inductive RTok where
  | lit (c : Char)
  | dot
  deriving Repr, DecidableEq

/-- Compilation of the (unescaped) company name into tokens:
`.` becomes the any-character metacharacter, everything else is literal. -/
def compileName (name : String) : List RTok :=
  name.data.map (fun c => if c = '.' then RTok.dot else RTok.lit c)

/-- Whether one token matches one character (with `re.I`). -/
def tokMatch : RTok → Char → Bool
  | RTok.lit c, d => c.toLower = d.toLower
  | RTok.dot, d => ¬ d = '\n'

/-- Whether a token list matches a character list exactly (each token consumes
one character). -/
def tokensMatch : List RTok → List Char → Bool
  | [], [] => true
  | t :: ts, c :: cs => tokMatch t c && tokensMatch ts cs
  | _, _ => false

/-- Search semantics of the pattern `name + '$'`: the pattern matches the
heading iff the tokens match starting at some position and reach the end of
the string. -/
def headingMatches (name heading : String) : Bool :=
  (List.range (heading.data.length + 1)).any
    (fun i => tokensMatch (compileName name) (heading.data.drop i))

/-- The acceptance condition in the words of the spec: the heading matches the
company name as a LITERAL string, case-insensitively, anchored at the end of
the heading text — i.e. the lower-cased heading ends with the lower-cased
name.  Kept separate from `headingMatches` (the embedding of the code) to
compare the two. -/
def literalSuffixMatch (name heading : String) : Prop :=
  ∃ pre, heading.data.map Char.toLower = pre ++ name.data.map Char.toLower

instance (name heading : String) : Decidable (literalSuffixMatch name heading) := by
  unfold literalSuffixMatch
  exact decidable_of_iff
    (heading.data.map Char.toLower =
      (heading.data.map Char.toLower).take
        ((heading.data.map Char.toLower).length - (name.data.map Char.toLower).length) ++
        name.data.map Char.toLower)
    (by
      constructor
      · intro h; exact ⟨_, h⟩
      · rintro ⟨pre, h⟩
        rw [h]
        congr 1
        rw [List.length_append, Nat.add_sub_cancel, List.take_left])

/-! ### `_verify_page` (source lines 42-71) -/

/-- Embedding of `_verify_page`: the page is accepted iff a response object
exists, its status is 200, the "Company page" landmark link is visible, and
some visible heading's accessible name matches the (unescaped) company-name
regex anchored at the end. -/
def verify_page (p : PageState) (companyName : String) : Bool :=
  match p.status with
  | none => false
  | some st =>
      if ¬ st = 200 then false
      else if ¬ p.landmarkVisible then false
      else p.headings.any (fun h => headingMatches companyName h)

/-- The messages `_verify_page` prints on its failure branches. -/
def verify_page_logs (p : PageState) (url companyName : String) : List String :=
  match p.status with
  | none => ["No response for " ++ url]
  | some st =>
      if ¬ st = 200 then ["Bad status: " ++ toString st ++ " " ++ p.statusText]
      else if ¬ p.landmarkVisible then ["Company page landmark not found, wrong page opened."]
      else if p.headings.any (fun h => headingMatches companyName h) then []
      else ["Company heading does not match the expected company name: " ++ companyName]

/-! ### `_get_stock_value` / `_get_last_update_timestamp` (source lines 73-100) -/

/-- Embedding of `_get_stock_value`: on a locator timeout the method returns
`False` (modelled `none`); otherwise the element text (empty for a `None`
text content) is stripped and commas are removed.  Source lines 78-86. -/
def get_stock_value (p : PageState) : Option String :=
  match p.priceText with
  | none => none
  | some t =>
      let raw := pyStrip t
      some (if raw.data.contains ',' then removeCommas raw else raw)

/-- What `_get_stock_value` prints (only the timeout branch prints). -/
def get_stock_value_logs (p : PageState) : List String :=
  match p.priceText with
  | none => ["Failed to find the latest stock price value"]
  | some _ => []

/-- Embedding of `_get_last_update_timestamp`: `none` on locator timeout,
otherwise the stripped element text.  Source lines 88-100. -/
def get_last_update_timestamp (p : PageState) : Option String :=
  match p.timestampText with
  | none => none
  | some t => some (pyStrip t)

/-- What `_get_last_update_timestamp` prints. -/
def get_last_update_timestamp_logs (p : PageState) : List String :=
  match p.timestampText with
  | none => ["Failed to find the last stock update timestamp"]
  | some _ => []

/-- Python truthiness of the `str`-or-`False` values returned by the two
getters: `False` and the empty string are falsy. -/
def truthy : Option String → Bool
  | none => false
  | some s => ¬ s.isEmpty

/-! ### The body of the per-row loop (source lines 136-164) -/

/-- Result of processing one row: the messages printed and either the updated
row (the loop moves on) or the uncaught exception that aborts the run. -/
structure RowStep where
  logs : List String
  out : Except PyError Row
  deriving Repr

/-- The exact message printed before `continue` on a verification failure
(source line 151). -/
def continueMsg : String :=
  "Failed to correctly load company stock page\nContinue to next company\n"

/-!
The body of the `for idx, row in self.df_in.iterrows()` loop for one row,
given the page state `p` the browser observes at that row's URL
(`stepRow` below):

* build the URL and navigate (lines 138-148);
* if `_verify_page` fails, print and `continue` — the row is unchanged
  (lines 150-152);
* otherwise read price and timestamp texts (lines 156-157);
* `if stock_value:` set `value` to `float(stock_value)` — an unparseable
  non-empty text raises an uncaught `ValueError` (lines 159-160);
* `if timestamp:` set `timestamp` (lines 161-162).
-/

/-- Lines 159-160: `if stock_value:` store `float(stock_value)` in the row's
`value`; `float` raises `ValueError` on an unparseable string. -/
def updateValue (r : Row) (sv : Option String) : Except PyError Row :=
  if truthy sv then
    match pyFloat? (sv.getD "") with
    | none => Except.error (PyError.valueError (sv.getD ""))
    | some q => Except.ok { r with value := some q }
  else Except.ok r

/-- Lines 161-162: `if timestamp: self.df_in.at[idx, 'timestamp'] = timestamp`. -/
def updateTimestamp (r : Row) (ts : Option String) : Row :=
  if truthy ts then { r with timestamp := ts } else r

/-- The loop body for one row; see the comment on `updateValue`. -/
def stepRow (p : PageState) (r : Row) : RowStep :=
  let url := company_url r
  let headLogs := ["Looking for latest stock price value for " ++ r.companyName,
                   "Loading company stock page: " ++ url]
  if ¬ verify_page p r.companyName then
    { logs := headLogs ++ verify_page_logs p url r.companyName ++ [continueMsg],
      out := Except.ok r }
  else
    let sv := get_stock_value p
    let ts := get_last_update_timestamp p
    let logs := headLogs ++
      ["Stock page loaded successfully",
       "Retrieving latest stock price value and last update timestamp"] ++
      get_stock_value_logs p ++ get_last_update_timestamp_logs p
    match updateValue r sv with
    | Except.error e => { logs := logs, out := Except.error e }
    | Except.ok r₁ =>
        { logs := logs ++ [""], out := Except.ok (updateTimestamp r₁ ts) }

/-- Accumulated outcome of the loop over a list of (row, page-state) pairs:
the URLs visited (one `page.goto` per row reached), the messages printed, and
either the final row list or the aborting exception. -/
structure LoopResult where
  visited : List String
  logs : List String
  result : Except PyError (List Row)
  deriving Repr

/-- The loop of `get_stock_values_csv` over the zipped rows and page states:
rows are processed in order; an uncaught exception stops the loop. -/
def runLoop : List (Row × PageState) → LoopResult
  | [] => { visited := [], logs := [], result := Except.ok [] }
  | (r, p) :: rest =>
      let s := stepRow p r
      match s.out with
      | Except.error e =>
          { visited := [company_url r], logs := s.logs, result := Except.error e }
      | Except.ok r' =>
          let lr := runLoop rest
          { visited := company_url r :: lr.visited,
            logs := s.logs ++ lr.logs,
            result := (lr.result).map (fun out => r' :: out) }

/-! ### `_setup` (source lines 23-40) and `get_stock_values_csv` (127-167) -/

/-- The input file as `pd.read_csv` can see it: missing (raises
`FileNotFoundError`), empty (raises `pd.errors.EmptyDataError`), or a CSV
whose header may or may not contain the required `timestamp` column, with its
parsed rows. -/
inductive InputFile where
  | missing
  | emptyFile
  | csv (hasTimestampCol : Bool) (rows : List Row)
  deriving Repr, DecidableEq

/-- Embedding of `_setup`: `FileNotFoundError` and `EmptyDataError` are caught
and turned into `ok none` (the method returns `False`); a present, non-empty
CSV without a `timestamp` column makes line 39
(`self.df_in['timestamp'].astype('string')`) raise an uncaught `KeyError`;
otherwise the rows are loaded and the method returns `True`. -/
def setupInput (f : InputFile) : Except PyError (Option (List Row)) :=
  match f with
  | InputFile.missing => Except.ok none
  | InputFile.emptyFile => Except.ok none
  | InputFile.csv hasTs rows =>
      if hasTs then Except.ok (some rows) else Except.error (PyError.keyError "timestamp")

/-- Observable outcome of a call to `get_stock_values_csv`: the URLs visited
(network activity), the loop's printed messages, the rows written by
`to_csv` (`none` when the output file is never written), and the uncaught
exception if any. -/
structure RunResult where
  visited : List String
  logs : List String
  written : Option (List Row)
  error : Option PyError
  deriving Repr

/-- Embedding of `get_stock_values_csv`: `_setup` failure raises
`RuntimeError` before the loop; otherwise the loop runs over the rows (the
page state observed at row `i`'s URL is `env[i]`), and only when no row
raised is `df_in` written to the output CSV. -/
def get_stock_values_csv (f : InputFile) (env : List PageState) : RunResult :=
  match setupInput f with
  | Except.error e => { visited := [], logs := [], written := none, error := some e }
  | Except.ok none =>
      { visited := [], logs := [], written := none,
        error := some (PyError.runtimeError "Failed to read the input CSV file") }
  | Except.ok (some rows) =>
      let lr := runLoop (rows.zip env)
      match lr.result with
      | Except.error e =>
          { visited := lr.visited, logs := lr.logs, written := none, error := some e }
      | Except.ok rows' =>
          { visited := lr.visited, logs := lr.logs, written := some rows', error := none }

/-! ### The `__main__` block (source lines 170-195) -/

/-- Calls on the retriever observable from `__main__`. -/
inductive MainEvent where
  | startCall
  | fetchCall
  | stopCall
  deriving Repr, DecidableEq

/-- Embedding of the `__main__` block:
`try: start(); get_stock_values_csv(...) finally: stop()`.
`startErr`/`fetchErr` say whether (and with what) each call raises; the
result is the sequence of calls made and the exception escaping the block. -/
def main_run (startErr fetchErr : Option PyError) : List MainEvent × Option PyError :=
  match startErr with
  | some e => ([MainEvent.startCall, MainEvent.stopCall], some e)
  | none =>
      match fetchErr with
      | some e => ([MainEvent.startCall, MainEvent.fetchCall, MainEvent.stopCall], some e)
      | none => ([MainEvent.startCall, MainEvent.fetchCall, MainEvent.stopCall], none)

/-! ### Lemmas about the loop body -/

theorem updateValue_ok_fields (r r' : Row) (sv : Option String)
    (h : updateValue r sv = Except.ok r') :
    r'.companyName = r.companyName ∧ r'.stockCode = r.stockCode ∧
      r'.timestamp = r.timestamp := by
  unfold updateValue at h
  split at h
  · split at h
    · cases h
    · rw [Except.ok.injEq] at h
      subst h
      exact ⟨rfl, rfl, rfl⟩
  · rw [Except.ok.injEq] at h
    subst h
    exact ⟨rfl, rfl, rfl⟩

theorem updateTimestamp_fields (r : Row) (ts : Option String) :
    (updateTimestamp r ts).companyName = r.companyName ∧
      (updateTimestamp r ts).stockCode = r.stockCode ∧
      (updateTimestamp r ts).value = r.value := by
  unfold updateTimestamp
  split <;> exact ⟨rfl, rfl, rfl⟩

theorem stepRow_of_verify_false (p : PageState) (r : Row)
    (h : verify_page p r.companyName = false) :
    (stepRow p r).out = Except.ok r ∧ continueMsg ∈ (stepRow p r).logs := by
  unfold stepRow
  simp [h]

theorem stepRow_of_verify_true (p : PageState) (r : Row)
    (h : verify_page p r.companyName = true) :
    (stepRow p r).out =
      match updateValue r (get_stock_value p) with
      | Except.error e => Except.error e
      | Except.ok r₁ => Except.ok (updateTimestamp r₁ (get_last_update_timestamp p)) := by
  unfold stepRow
  simp only [h, Bool.not_true, Bool.false_eq_true, if_false, decide_True, decide_False]
  cases updateValue r (get_stock_value p) <;> rfl

theorem stepRow_ok_preserves (p : PageState) (r r' : Row)
    (h : (stepRow p r).out = Except.ok r') :
    r'.companyName = r.companyName ∧ r'.stockCode = r.stockCode := by
  by_cases hv : verify_page p r.companyName = true
  · rw [stepRow_of_verify_true p r hv] at h
    cases hu : updateValue r (get_stock_value p) with
    | error e => rw [hu] at h; cases h
    | ok r₁ =>
        rw [hu] at h
        rw [Except.ok.injEq] at h
        subst h
        obtain ⟨h1, h2, _⟩ := updateValue_ok_fields r r₁ _ hu
        obtain ⟨h3, h4, _⟩ := updateTimestamp_fields r₁ (get_last_update_timestamp p)
        exact ⟨h3.trans h1, h4.trans h2⟩
  · rw [Bool.not_eq_true] at hv
    obtain ⟨h1, _⟩ := stepRow_of_verify_false p r hv
    rw [h1, Except.ok.injEq] at h
    subst h
    exact ⟨rfl, rfl⟩

/-! ### Lemmas about the loop -/

theorem runLoop_cons_ok (r : Row) (p : PageState) (rest : List (Row × PageState))
    (r₁ : Row) (hs : (stepRow p r).out = Except.ok r₁) :
    runLoop ((r, p) :: rest) =
      { visited := company_url r :: (runLoop rest).visited,
        logs := (stepRow p r).logs ++ (runLoop rest).logs,
        result := ((runLoop rest).result).map (fun out => r₁ :: out) } := by
  simp [runLoop, hs]

theorem runLoop_cons_error (r : Row) (p : PageState) (rest : List (Row × PageState))
    (e : PyError) (hs : (stepRow p r).out = Except.error e) :
    runLoop ((r, p) :: rest) =
      { visited := [company_url r], logs := (stepRow p r).logs,
        result := Except.error e } := by
  simp [runLoop, hs]

theorem runLoop_ok_pointwise (l : List (Row × PageState)) (out : List Row)
    (h : (runLoop l).result = Except.ok out) :
    out.length = l.length ∧
      ∀ (i : Nat) (x : Row × PageState), l[i]? = some x →
        ∃ r', out[i]? = some r' ∧ (stepRow x.2 x.1).out = Except.ok r' := by
  induction l generalizing out with
  | nil =>
      simp only [runLoop] at h
      rw [Except.ok.injEq] at h
      subst h
      refine ⟨rfl, ?_⟩
      intro i x hx
      simp at hx
  | cons hd tl ih =>
      obtain ⟨r, p⟩ := hd
      cases hs : (stepRow p r).out with
      | error e =>
          rw [runLoop_cons_error r p tl e hs] at h
          cases h
      | ok r₁ =>
          rw [runLoop_cons_ok r p tl r₁ hs] at h
          cases ht : (runLoop tl).result with
          | error e =>
              rw [ht] at h
              cases h
          | ok out' =>
              rw [ht] at h
              simp only [Except.map] at h
              rw [Except.ok.injEq] at h
              subst h
              obtain ⟨hlen, hpt⟩ := ih out' ht
              refine ⟨by simp [hlen], ?_⟩
              intro i x hx
              cases i with
              | zero =>
                  simp only [List.getElem?_cons_zero, Option.some.injEq] at hx
                  subst hx
                  exact ⟨r₁, by simp, hs⟩
              | succ n =>
                  simp only [List.getElem?_cons_succ] at hx ⊢
                  exact hpt n x hx

theorem runLoop_ok_visited (l : List (Row × PageState)) (out : List Row)
    (h : (runLoop l).result = Except.ok out) :
    (runLoop l).visited = l.map (fun x => company_url x.1) := by
  induction l generalizing out with
  | nil => rfl
  | cons hd tl ih =>
      obtain ⟨r, p⟩ := hd
      cases hs : (stepRow p r).out with
      | error e =>
          rw [runLoop_cons_error r p tl e hs] at h
          cases h
      | ok r₁ =>
          rw [runLoop_cons_ok r p tl r₁ hs] at h ⊢
          cases ht : (runLoop tl).result with
          | error e => rw [ht] at h; cases h
          | ok out' =>
              show company_url r :: (runLoop tl).visited = _
              rw [List.map_cons, ih out' ht]

theorem runLoop_ok_logs_mem (l : List (Row × PageState)) (x : Row × PageState)
    (out : List Row) (h : (runLoop l).result = Except.ok out) (hx : x ∈ l)
    (m : String) (hm : m ∈ (stepRow x.2 x.1).logs) : m ∈ (runLoop l).logs := by
  induction l generalizing out with
  | nil => cases hx
  | cons hd tl ih =>
      obtain ⟨r, p⟩ := hd
      cases hs : (stepRow p r).out with
      | error e =>
          rw [runLoop_cons_error r p tl e hs] at h
          cases h
      | ok r₁ =>
          rw [runLoop_cons_ok r p tl r₁ hs] at h ⊢
          cases ht : (runLoop tl).result with
          | error e => rw [ht] at h; cases h
          | ok out' =>
              simp only [List.mem_append]
              rcases List.mem_cons.mp hx with hx | hx
              · subst hx
                exact Or.inl hm
              · exact Or.inr (ih out' ht hx)

theorem runLoop_append_error (pre : List (Row × PageState)) (x : Row × PageState)
    (rest : List (Row × PageState)) (e : PyError)
    (hpre : ∀ y ∈ pre, ∃ r₂, (stepRow y.2 y.1).out = Except.ok r₂)
    (hx : (stepRow x.2 x.1).out = Except.error e) :
    (runLoop (pre ++ x :: rest)).result = Except.error e := by
  induction pre with
  | nil =>
      obtain ⟨r, p⟩ := x
      rw [List.nil_append, runLoop_cons_error r p rest e hx]
  | cons y pre ih =>
      obtain ⟨r, p⟩ := y
      obtain ⟨r₂, hy⟩ := hpre (r, p) (List.mem_cons_self _ _)
      rw [List.cons_append, runLoop_cons_ok r p (pre ++ x :: rest) r₂ hy]
      have hrec := ih (fun z hz => hpre z (List.mem_cons_of_mem _ hz))
      rw [hrec]
      rfl

/-! ### Lemmas about the heading regex and `_verify_page` -/

theorem tokensMatch_lit (B l : List Char) :
    tokensMatch (B.map RTok.lit) l = true ↔
      B.map Char.toLower = l.map Char.toLower := by
  induction B generalizing l with
  | nil => cases l <;> simp [tokensMatch]
  | cons b B ih =>
      cases l with
      | nil => simp [tokensMatch]
      | cons c l => simp [tokensMatch, tokMatch, ih]

theorem compileName_no_dot (name : String) (h : ∀ c ∈ name.data, ¬ c = '.') :
    compileName name = name.data.map RTok.lit := by
  unfold compileName
  refine List.map_congr_left ?_
  intro c hc
  simp [h c hc]

/-- For a company name without the regex metacharacter `.`, the code's
acceptance condition coincides with the literal, case-insensitive,
end-anchored match the spec describes. -/
theorem headingMatches_iff_literal (name heading : String)
    (hplain : ∀ c ∈ name.data, ¬ c = '.') :
    headingMatches name heading = true ↔ literalSuffixMatch name heading := by
  unfold headingMatches literalSuffixMatch
  rw [compileName_no_dot name hplain, List.any_eq_true]
  constructor
  · rintro ⟨i, _, hmatch⟩
    rw [tokensMatch_lit] at hmatch
    refine ⟨(heading.data.map Char.toLower).take i, ?_⟩
    rw [hmatch, List.map_drop]
    exact (List.take_append_drop i _).symm
  · rintro ⟨pre, hpre⟩
    have hlen := congrArg List.length hpre
    simp only [List.length_append, List.length_map] at hlen
    refine ⟨pre.length, ?_, ?_⟩
    · rw [List.mem_range]
      omega
    · rw [tokensMatch_lit, List.map_drop, hpre, List.drop_left]

/-- Each of the four failure modes of `_verify_page` — no response, non-200
status, missing landmark, no heading matching the name — makes it return
`False`. -/
theorem verify_page_eq_false (p : PageState) (name : String)
    (h : p.status = none ∨ (∃ st, p.status = some st ∧ ¬ st = 200) ∨
        p.landmarkVisible = false ∨ ∀ s ∈ p.headings, headingMatches name s = false) :
    verify_page p name = false := by
  unfold verify_page
  rcases h with h | ⟨st, hst, hne⟩ | h | h
  · rw [h]
  · rw [hst]
    simp [hne]
  · cases hp : p.status with
    | none => rfl
    | some st =>
        by_cases h200 : st = 200 <;> simp [h200, h]
  · cases hp : p.status with
    | none => rfl
    | some st =>
        by_cases h200 : st = 200
        · by_cases hl : p.landmarkVisible
          · simp only [h200, hl]
            simp
            exact h
          · simp [h200, hl]
        · simp [h200]

/-! ### Lemmas about `get_stock_values_csv` -/

theorem run_csv_true_ok (rows : List Row) (env : List PageState) (rows' : List Row)
    (h : (runLoop (rows.zip env)).result = Except.ok rows') :
    get_stock_values_csv (InputFile.csv true rows) env =
      { visited := (runLoop (rows.zip env)).visited,
        logs := (runLoop (rows.zip env)).logs,
        written := some rows', error := none } := by
  simp [get_stock_values_csv, setupInput, h]

theorem run_csv_true_error (rows : List Row) (env : List PageState) (e : PyError)
    (h : (runLoop (rows.zip env)).result = Except.error e) :
    get_stock_values_csv (InputFile.csv true rows) env =
      { visited := (runLoop (rows.zip env)).visited,
        logs := (runLoop (rows.zip env)).logs,
        written := none, error := some e } := by
  simp [get_stock_values_csv, setupInput, h]

theorem run_csv_true_written (rows : List Row) (env : List PageState) (out : List Row)
    (h : (get_stock_values_csv (InputFile.csv true rows) env).written = some out) :
    (runLoop (rows.zip env)).result = Except.ok out := by
  cases ht : (runLoop (rows.zip env)).result with
  | error e =>
      rw [run_csv_true_error rows env e ht] at h
      cases h
  | ok rows' =>
      rw [run_csv_true_ok rows env rows' ht] at h
      simp only [Option.some.injEq] at h
      rw [h]

theorem run_error_written_none (f : InputFile) (env : List PageState) (e : PyError)
    (h : (get_stock_values_csv f env).error = some e) :
    (get_stock_values_csv f env).written = none := by
  cases f with
  | missing => rfl
  | emptyFile => rfl
  | csv hasTs rows =>
      cases hasTs with
      | false => rfl
      | true =>
          cases ht : (runLoop (rows.zip env)).result with
          | error e' => rw [run_csv_true_error rows env e' ht]
          | ok rows' =>
              rw [run_csv_true_ok rows env rows' ht] at h
              cases h

/-! ### Sample concrete inputs for instantiations -/

/-- A sample input row. -/
def rowA : Row :=
  { companyName := "Acme Widgets", stockCode := "ACME", value := none,
    timestamp := some "old" }

/-- A page whose response has HTTP status 404. -/
def page404 : PageState :=
  { status := some 404, statusText := "Not Found", landmarkVisible := true,
    headings := ["Acme Widgets"], priceText := some "1,234.5",
    timestampText := some "Last updated" }

/-- A fully successful page for `rowA`, with a thousands separator in the
price text. -/
def pageGood : PageState :=
  { status := some 200, statusText := "OK", landmarkVisible := true,
    headings := ["Stock prices Acme Widgets"], priceText := some " 1,234.5 ",
    timestampText := some "16:35:02" }

/-- A verified page whose price text is non-empty but not parseable as a
float, and whose timestamp element is absent. -/
def pageBadPrice : PageState :=
  { status := some 200, statusText := "OK", landmarkVisible := true,
    headings := ["Acme Widgets"], priceText := some "n/a", timestampText := none }

/-- A verified page missing both the price and the timestamp elements. -/
def pageNoData : PageState :=
  { status := some 200, statusText := "OK", landmarkVisible := true,
    headings := ["Acme Widgets"], priceText := none,
    timestampText := some "16:35:02" }

/-! ### The claims -/

/-- C1: with a readable input CSV of N rows (the `timestamp` column present)
and a page-state environment covering every row, if `get_stock_values_csv`
writes the output file then the output has exactly N rows, in the same order
as the input: the row at every index keeps its company name and stock code —
only the `value`/`timestamp` fields are updated in place — and no rows are
added or removed by the loop. -/
theorem C1_output_rows_match_input (rows : List Row) (env : List PageState)
    (out : List Row) (hlen : rows.length ≤ env.length)
    (hout : (get_stock_values_csv (InputFile.csv true rows) env).written = some out) :
    out.length = rows.length ∧
      ∀ i : Nat,
        (out[i]?).map Row.companyName = (rows[i]?).map Row.companyName ∧
          (out[i]?).map Row.stockCode = (rows[i]?).map Row.stockCode := by
  have hres := run_csv_true_written rows env out hout
  obtain ⟨hl, hpt⟩ := runLoop_ok_pointwise (rows.zip env) out hres
  have hzlen : (rows.zip env).length = rows.length := by
    rw [List.length_zip]
    omega
  refine ⟨hl.trans hzlen, ?_⟩
  intro i
  by_cases hi : i < rows.length
  · have hie : i < env.length := lt_of_lt_of_le hi hlen
    have hr : rows[i]? = some rows[i] := List.getElem?_eq_getElem hi
    have hp : env[i]? = some env[i] := List.getElem?_eq_getElem hie
    have hz : (rows.zip env)[i]? = some (rows[i], env[i]) :=
      List.getElem?_zip_eq_some.mpr ⟨hr, hp⟩
    obtain ⟨r', hr', hstep⟩ := hpt i (rows[i], env[i]) hz
    obtain ⟨hname, hcode⟩ := stepRow_ok_preserves env[i] rows[i] r' hstep
    rw [hr', hr]
    simp [hname, hcode]
  · have h1 : rows[i]? = none := List.getElem?_eq_none (by omega)
    have h2 : out[i]? = none := List.getElem?_eq_none (by omega)
    rw [h1, h2]
    exact ⟨rfl, rfl⟩

/-- Witness for C1 at a one-row input whose page returns 404. -/
theorem C1_output_rows_match_input_witness :
    ([rowA].length ≤ [page404].length ∧
        (get_stock_values_csv (InputFile.csv true [rowA]) [page404]).written =
          some [rowA]) ∧
      ([rowA].length = [rowA].length ∧
        ∀ i : Nat,
          (([rowA] : List Row)[i]?).map Row.companyName =
              (([rowA] : List Row)[i]?).map Row.companyName ∧
            (([rowA] : List Row)[i]?).map Row.stockCode =
              (([rowA] : List Row)[i]?).map Row.stockCode) :=
  ⟨⟨by decide, by decide⟩,
    C1_output_rows_match_input [rowA] [page404] [rowA] (by decide) (by decide)⟩

/-- C2: a row whose page verification fails — absent response, non-200 status
(such as 404), missing landmark element, or no heading matching the company
name — is left with its prior `value`/`timestamp` in the written output, the
failure is logged (`continue` message printed), and the loop continues:
the row's step returns normally, so subsequent rows are processed. -/
theorem C2_verify_failure_tolerated (rows : List Row) (env : List PageState)
    (out : List Row) (i : Nat) (r : Row) (p : PageState)
    (hr : rows[i]? = some r) (hp : env[i]? = some p)
    (hfail : p.status = none ∨ (∃ st, p.status = some st ∧ ¬ st = 200) ∨
        p.landmarkVisible = false ∨
        ∀ s ∈ p.headings, headingMatches r.companyName s = false)
    (hout : (get_stock_values_csv (InputFile.csv true rows) env).written = some out) :
    out[i]? = some r ∧
      continueMsg ∈ (get_stock_values_csv (InputFile.csv true rows) env).logs ∧
      (stepRow p r).out = Except.ok r := by
  have hv := verify_page_eq_false p r.companyName hfail
  obtain ⟨hok, hlog⟩ := stepRow_of_verify_false p r hv
  have hres := run_csv_true_written rows env out hout
  obtain ⟨hl, hpt⟩ := runLoop_ok_pointwise (rows.zip env) out hres
  have hz : (rows.zip env)[i]? = some (r, p) :=
    List.getElem?_zip_eq_some.mpr ⟨hr, hp⟩
  obtain ⟨r', hr', hstep⟩ := hpt i (r, p) hz
  have hrr : r' = r := by
    have h2 := hok.symm.trans hstep
    rw [Except.ok.injEq] at h2
    exact h2.symm
  rw [hrr] at hr'
  refine ⟨hr', ?_, hok⟩
  rw [run_csv_true_ok rows env out hres]
  exact runLoop_ok_logs_mem (rows.zip env) (r, p) out hres
    (List.getElem?_mem hz) continueMsg hlog

/-- Witness for C2 at a one-row input whose page returns 404. -/
theorem C2_verify_failure_tolerated_witness :
    (([rowA] : List Row)[0]? = some rowA ∧
        ([page404] : List PageState)[0]? = some page404 ∧
        (page404.status = none ∨
          (∃ st, page404.status = some st ∧ ¬ st = 200) ∨
          page404.landmarkVisible = false ∨
          ∀ s ∈ page404.headings, headingMatches rowA.companyName s = false) ∧
        (get_stock_values_csv (InputFile.csv true [rowA]) [page404]).written =
          some [rowA]) ∧
      (([rowA] : List Row)[0]? = some rowA ∧
        continueMsg ∈ (get_stock_values_csv (InputFile.csv true [rowA]) [page404]).logs ∧
        (stepRow page404 rowA).out = Except.ok rowA) :=
  ⟨⟨by decide, by decide, Or.inr (Or.inl ⟨404, rfl, by decide⟩), by decide⟩,
    C2_verify_failure_tolerated [rowA] [page404] [rowA] 0 rowA page404
      (by decide) (by decide) (Or.inr (Or.inl ⟨404, rfl, by decide⟩)) (by decide)⟩

/-- C3: a missing input file and an empty input file both make
`get_stock_values_csv` raise `RuntimeError` before any page is visited
(no URL in `visited`, hence no network activity) and before the output file
is written (`written = none`): the whole run aborts. -/
theorem C3_input_errors_fatal_before_network (env : List PageState) :
    get_stock_values_csv InputFile.missing env =
        { visited := [], logs := [], written := none,
          error := some (PyError.runtimeError "Failed to read the input CSV file") } ∧
      get_stock_values_csv InputFile.emptyFile env =
        { visited := [], logs := [], written := none,
          error := some (PyError.runtimeError "Failed to read the input CSV file") } :=
  ⟨rfl, rfl⟩

/-- C4: on a verified page whose (stripped) price text contains commas, the
value stored in the row is the float obtained after removing all commas;
e.g. price text `"1,234.5"` yields the numeric value `1234.5`. -/
theorem C4_thousands_separators_removed (p : PageState) (r : Row) (t : String) (q : ℚ)
    (hv : verify_page p r.companyName = true)
    (ht : p.priceText = some t)
    (hcomma : (pyStrip t).data.contains ',' = true)
    (hq : pyFloat? (removeCommas (pyStrip t)) = some q)
    (hne : (removeCommas (pyStrip t)).isEmpty = false) :
    ∃ r', (stepRow p r).out = Except.ok r' ∧ r'.value = some q := by
  have hsv : get_stock_value p = some (removeCommas (pyStrip t)) := by
    unfold get_stock_value
    rw [ht]
    show some (if (pyStrip t).data.contains ',' then removeCommas (pyStrip t)
      else pyStrip t) = _
    rw [if_pos hcomma]
  have hupd : updateValue r (get_stock_value p) =
      Except.ok { r with value := some q } := by
    unfold updateValue
    rw [hsv]
    simp [truthy, hne, hq]
  rw [stepRow_of_verify_true p r hv, hupd]
  refine ⟨updateTimestamp { r with value := some q } (get_last_update_timestamp p),
    rfl, ?_⟩
  rw [(updateTimestamp_fields _ _).2.2]

/-- Evaluation of the modelled `float` on the comma-stripped sample price
text: `float("1234.5")` is `1234.5 = 2469/2`. -/
theorem pyFloat_comma_example :
    pyFloat? (removeCommas (pyStrip " 1,234.5 ")) = some ((2469 : ℚ) / 2) := by
  have h1 : pyFloat? (removeCommas (pyStrip " 1,234.5 ")) =
      some (((1234 : ℕ) : ℚ) + ((5 : ℕ) : ℚ) / (10 : ℚ) ^ (1 : ℕ)) := rfl
  rw [h1, Option.some.injEq]
  norm_num

/-- Witness for C4: price text `" 1,234.5 "` stores the value `1234.5`. -/
theorem C4_thousands_separators_removed_witness :
    (verify_page pageGood rowA.companyName = true ∧
        pageGood.priceText = some " 1,234.5 " ∧
        (pyStrip " 1,234.5 ").data.contains ',' = true ∧
        pyFloat? (removeCommas (pyStrip " 1,234.5 ")) = some ((2469 : ℚ) / 2) ∧
        (removeCommas (pyStrip " 1,234.5 ")).isEmpty = false) ∧
      ∃ r', (stepRow pageGood rowA).out = Except.ok r' ∧
        r'.value = some ((2469 : ℚ) / 2) :=
  ⟨⟨by decide, rfl, by decide, pyFloat_comma_example, by decide⟩,
    C4_thousands_separators_removed pageGood rowA " 1,234.5 " ((2469 : ℚ) / 2)
      (by decide) rfl (by decide) pyFloat_comma_example (by decide)⟩

/-- C5 counterexample: `_verify_page` compiles the company name into the
regex without escaping, so the acceptance condition is NOT the same literal
comparison for every name: for the name `"A.C"` a page whose only heading is
`"AXC"` is accepted, although `"AXC"` does not end with the name taken as a
literal string. -/
theorem C5_counterexample_regex_metachar :
    verify_page
        { status := some 200, statusText := "OK", landmarkVisible := true,
          headings := ["AXC"], priceText := none, timestampText := none }
        "A.C" = true ∧
      ¬ literalSuffixMatch "A.C" "AXC" :=
  ⟨by decide, by decide⟩

/-- C5 (amended): page verification accepts a page iff the response status is
200, the landmark is visible, and some heading matches the pattern
`name + '$'` case-insensitively — the name being interpreted as an UNESCAPED
regular expression.  For a company name containing no regex metacharacter
(within the modelled fragment: no `.`), this acceptance condition is exactly
the literal case-insensitive match anchored at the end of the heading text. -/
theorem C5_plain_name_literal_acceptance (p : PageState) (name : String)
    (hplain : ∀ c ∈ name.data, ¬ c = '.') :
    verify_page p name = true ↔
      (p.status = some 200 ∧ p.landmarkVisible = true ∧
        ∃ s ∈ p.headings, literalSuffixMatch name s) := by
  unfold verify_page
  cases hp : p.status with
  | none => simp [hp]
  | some st =>
      by_cases h200 : st = 200
      · subst h200
        by_cases hl : p.landmarkVisible
        · simp [hl, List.any_eq_true]
          constructor
          · rintro ⟨s, hs, hm⟩
            exact ⟨s, hs, (headingMatches_iff_literal name s hplain).mp hm⟩
          · rintro ⟨s, hs, hm⟩
            exact ⟨s, hs, (headingMatches_iff_literal name s hplain).mpr hm⟩
        · simp [hp, hl]
      · simp [hp, h200]

/-- A page with status 200, the landmark visible, and the single heading
`"The APPLE"`. -/
def pageApple : PageState :=
  { status := some 200, statusText := "OK", landmarkVisible := true,
    headings := ["The APPLE"], priceText := none, timestampText := none }

/-- Witness for the amended C5 at a metacharacter-free name. -/
theorem C5_plain_name_literal_acceptance_witness :
    (∀ c ∈ ("Apple" : String).data, ¬ c = '.') ∧
      (verify_page pageApple "Apple" = true ↔
        (pageApple.status = some 200 ∧ pageApple.landmarkVisible = true ∧
          ∃ s ∈ pageApple.headings, literalSuffixMatch "Apple" s)) :=
  ⟨by decide, C5_plain_name_literal_acceptance pageApple "Apple" (by decide)⟩

/-- C6 counterexample: on a successfully verified page whose timestamp
element is absent but whose price text is found, non-empty and unparseable
(`"n/a"`), the loop does NOT continue to the next row: the row's step raises
`ValueError`, so the claim's "the loop continues" fails at this input. -/
theorem C6_counterexample_unparseable_other_field :
    verify_page pageBadPrice rowA.companyName = true ∧
      pageBadPrice.timestampText = none ∧
      (stepRow pageBadPrice rowA).out = Except.error (PyError.valueError "n/a") ∧
      ∀ r', ¬ (stepRow pageBadPrice rowA).out = Except.ok r' := by
  have h1 : (stepRow pageBadPrice rowA).out =
      Except.error (PyError.valueError "n/a") := rfl
  refine ⟨by decide, rfl, h1, ?_⟩
  intro r' h
  rw [h1] at h
  cases h

/-- C6 (amended): on a successfully verified page — provided any found
non-empty price text parses as a float; an unparseable one instead raises
`ValueError` (see C9) — the row's step returns normally: an absent or empty
price leaves `value` unchanged, an absent or empty timestamp leaves
`timestamp` unchanged, and each field that IS found (non-empty, and for the
price parseable) is updated even when the other is missing. -/
theorem C6_missing_elements_tolerated (p : PageState) (r : Row)
    (hv : verify_page p r.companyName = true)
    (hparse : ∀ s, get_stock_value p = some s → s.isEmpty = false →
        ∃ q, pyFloat? s = some q) :
    ∃ r', (stepRow p r).out = Except.ok r' ∧
      (truthy (get_stock_value p) = false → r'.value = r.value) ∧
      (truthy (get_last_update_timestamp p) = false → r'.timestamp = r.timestamp) ∧
      (∀ s q, get_stock_value p = some s → s.isEmpty = false →
          pyFloat? s = some q → r'.value = some q) ∧
      (∀ t, get_last_update_timestamp p = some t → t.isEmpty = false →
          r'.timestamp = some t) := by
  rw [stepRow_of_verify_true p r hv]
  cases hsv : get_stock_value p with
  | none =>
      have huv : updateValue r none = Except.ok r := rfl
      rw [huv]
      refine ⟨updateTimestamp r (get_last_update_timestamp p), rfl,
        fun _ => (updateTimestamp_fields r _).2.2, ?_, ?_, ?_⟩
      · intro hts
        simp [updateTimestamp, hts]
      · intro s q hs
        cases hs
      · intro t hts hne
        simp [updateTimestamp, hts, truthy, hne]
  | some s =>
      cases hse : s.isEmpty with
      | true =>
          have huv : updateValue r (some s) = Except.ok r := by
            unfold updateValue
            simp [truthy, hse]
          rw [huv]
          refine ⟨updateTimestamp r (get_last_update_timestamp p), rfl,
            fun _ => (updateTimestamp_fields r _).2.2, ?_, ?_, ?_⟩
          · intro hts
            simp [updateTimestamp, hts]
          · intro s' q hs' hne'
            rw [Option.some.injEq] at hs'
            subst hs'
            rw [hse] at hne'
            cases hne'
          · intro t hts hne
            simp [updateTimestamp, hts, truthy, hne]
      | false =>
          obtain ⟨q0, hq0⟩ := hparse s hsv hse
          have huv : updateValue r (some s) =
              Except.ok { r with value := some q0 } := by
            unfold updateValue
            simp [truthy, hse, hq0]
          rw [huv]
          refine ⟨updateTimestamp { r with value := some q0 }
              (get_last_update_timestamp p), rfl, ?_, ?_, ?_, ?_⟩
          · intro hfalse
            simp [truthy, hse] at hfalse
          · intro hts
            simp [updateTimestamp, hts]
          · intro s' q' hs' hne' hq'
            rw [Option.some.injEq] at hs'
            subst hs'
            rw [hq0] at hq'
            rw [Option.some.injEq] at hq'
            subst hq'
            rw [(updateTimestamp_fields _ _).2.2]
          · intro t hts hne
            simp [updateTimestamp, hts, truthy, hne]

/-- Witness for the amended C6: verified page with the price element absent
and a non-empty timestamp — the value is unchanged, the timestamp stored. -/
theorem C6_missing_elements_tolerated_witness :
    verify_page pageNoData rowA.companyName = true ∧
      ∃ r', (stepRow pageNoData rowA).out = Except.ok r' ∧
        (truthy (get_stock_value pageNoData) = false → r'.value = rowA.value) ∧
        (truthy (get_last_update_timestamp pageNoData) = false →
            r'.timestamp = rowA.timestamp) ∧
        (∀ s q, get_stock_value pageNoData = some s → s.isEmpty = false →
            pyFloat? s = some q → r'.value = some q) ∧
        (∀ t, get_last_update_timestamp pageNoData = some t → t.isEmpty = false →
            r'.timestamp = some t) :=
  ⟨by decide,
    C6_missing_elements_tolerated pageNoData rowA (by decide)
      (by
        intro s hs
        simp [get_stock_value, pageNoData] at hs)⟩

/-- C7: when the run completes without an uncaught exception, the URLs
visited are exactly — one per input row, in order — the fixed template
`https://www.londonstockexchange.com/stock/{code}/{slug}/company-page`, with
`{code}` the row's stock code and `{slug}` the company name lower-cased with
every space replaced by a hyphen. -/
theorem C7_visited_urls_match_template (rows : List Row) (env : List PageState)
    (hlen : rows.length ≤ env.length)
    (herr : (get_stock_values_csv (InputFile.csv true rows) env).error = none) :
    (get_stock_values_csv (InputFile.csv true rows) env).visited =
      rows.map (fun r =>
        "https://www.londonstockexchange.com/stock/" ++ r.stockCode ++ "/" ++
          String.mk ((r.companyName.data.map Char.toLower).map
            (fun c => if c = ' ' then '-' else c)) ++ "/company-page") := by
  cases ht : (runLoop (rows.zip env)).result with
  | error e =>
      rw [run_csv_true_error rows env e ht] at herr
      cases herr
  | ok rows' =>
      rw [run_csv_true_ok rows env rows' ht]
      show (runLoop (rows.zip env)).visited = _
      rw [runLoop_ok_visited (rows.zip env) rows' ht]
      have hmm : (rows.zip env).map (fun x => company_url x.1) =
          ((rows.zip env).map Prod.fst).map company_url := by
        rw [List.map_map]
        rfl
      rw [hmm, List.map_fst_zip rows env hlen]
      exact List.map_congr_left (fun r _ => rfl)

/-- Witness for C7 at a one-row input. -/
theorem C7_visited_urls_match_template_witness :
    ([rowA].length ≤ [page404].length ∧
        (get_stock_values_csv (InputFile.csv true [rowA]) [page404]).error = none) ∧
      (get_stock_values_csv (InputFile.csv true [rowA]) [page404]).visited =
        [rowA].map (fun r =>
          "https://www.londonstockexchange.com/stock/" ++ r.stockCode ++ "/" ++
            String.mk ((r.companyName.data.map Char.toLower).map
              (fun c => if c = ' ' then '-' else c)) ++ "/company-page") :=
  ⟨⟨by decide, by decide⟩,
    C7_visited_urls_match_template [rowA] [page404] (by decide) (by decide)⟩

/-- C8: in every run of the `__main__` block, `start()` is called exactly
once, `stop()` is called exactly once on every exit path — whether `start()`
or `get_stock_values_csv` raises or completes — and `stop()` is the last call
made (the session is released at the end). -/
theorem C8_stop_called_exactly_once (startErr fetchErr : Option PyError) :
    (main_run startErr fetchErr).1.count MainEvent.stopCall = 1 ∧
      (main_run startErr fetchErr).1.count MainEvent.startCall = 1 ∧
      (main_run startErr fetchErr).1.getLast? = some MainEvent.stopCall := by
  cases startErr <;> cases fetchErr <;> exact ⟨rfl, rfl, rfl⟩

/-- C9: a row on a successfully verified page whose extracted price text is
non-empty but not parseable as a float raises an uncaught `ValueError` at
that row; after any prefix of rows that completed normally the whole batch
aborts with that error, and whenever a run ends in an uncaught error the
output CSV is never written — unlike the tolerated per-row failures. -/
theorem C9_unparseable_price_aborts (p : PageState) (r : Row) (s : String)
    (hv : verify_page p r.companyName = true)
    (hsv : get_stock_value p = some s)
    (hne : s.isEmpty = false)
    (hbad : pyFloat? s = none) :
    (stepRow p r).out = Except.error (PyError.valueError s) ∧
      (∀ pre rest, (∀ y ∈ pre, ∃ r₂, (stepRow y.2 y.1).out = Except.ok r₂) →
          (runLoop (pre ++ (r, p) :: rest)).result =
            Except.error (PyError.valueError s)) ∧
      ∀ f env e, (get_stock_values_csv f env).error = some e →
          (get_stock_values_csv f env).written = none := by
  have hstep : (stepRow p r).out = Except.error (PyError.valueError s) := by
    rw [stepRow_of_verify_true p r hv]
    have huv : updateValue r (get_stock_value p) =
        Except.error (PyError.valueError s) := by
      unfold updateValue
      rw [hsv]
      simp [truthy, hne, hbad]
    rw [huv]
  refine ⟨hstep, ?_, ?_⟩
  · intro pre rest hpre
    exact runLoop_append_error pre (r, p) rest _ hpre hstep
  · intro f env e
    exact run_error_written_none f env e

/-- Witness for C9: price text `"n/a"` on a verified page. -/
theorem C9_unparseable_price_aborts_witness :
    (verify_page pageBadPrice rowA.companyName = true ∧
        get_stock_value pageBadPrice = some "n/a" ∧
        ("n/a" : String).isEmpty = false ∧
        pyFloat? "n/a" = none) ∧
      ((stepRow pageBadPrice rowA).out =
          Except.error (PyError.valueError "n/a") ∧
        (∀ pre rest,
            (∀ y ∈ pre, ∃ r₂, (stepRow y.2 y.1).out = Except.ok r₂) →
            (runLoop (pre ++ (rowA, pageBadPrice) :: rest)).result =
              Except.error (PyError.valueError "n/a")) ∧
        ∀ f env e, (get_stock_values_csv f env).error = some e →
            (get_stock_values_csv f env).written = none) :=
  ⟨⟨by decide, by decide, by decide, by decide⟩,
    C9_unparseable_price_aborts pageBadPrice rowA "n/a"
      (by decide) (by decide) (by decide) (by decide)⟩

/-- C10: an input CSV that exists and is non-empty but lacks the `timestamp`
column makes the run fail with an uncaught `KeyError` (line 39's
`astype('string')` access), before any page is visited and with no output
written — not via the documented `RuntimeError` path; only the missing-file
(`FileNotFoundError`) and empty-file (`EmptyDataError`) cases make `_setup`
return `False` and so take the fatal `RuntimeError` path. -/
theorem C10_missing_timestamp_column_keyerror (rows : List Row)
    (env : List PageState) :
    get_stock_values_csv (InputFile.csv false rows) env =
        { visited := [], logs := [], written := none,
          error := some (PyError.keyError "timestamp") } ∧
      setupInput InputFile.missing = Except.ok none ∧
      setupInput InputFile.emptyFile = Except.ok none ∧
      (get_stock_values_csv InputFile.missing env).error =
        some (PyError.runtimeError "Failed to read the input CSV file") ∧
      (get_stock_values_csv InputFile.emptyFile env).error =
        some (PyError.runtimeError "Failed to read the input CSV file") :=
  ⟨rfl, rfl, rfl, rfl, rfl⟩

end StockRetriever
